import Mathlib

/-!
Verification of the boot-test harness in `src/integration.rs`
(rust-hypervisor-firmware integration tests).

Strings are modelled as `List Char`.  Rust's `str::replace` is modelled by
`replaceAll` (fuel-based, leftmost non-overlapping, no rescanning of the
substituted value), decimal formatting `format!("{}", n)` by `fmtDec`, and
`{:02x}` by `hexPad2`.  Effectful functions (`prepare`, `ssh_command`,
`test_boot`) are modelled by passing the outcomes of their environment
interactions (process spawns, exit statuses, network attempts) explicitly
and recording the externally visible actions in result values / traces.
-/

namespace RHFW

/-- ASCII digit character for `n < 10` (`'0'` has code 48). -/
def digitChar (n : Nat) : Char := Char.ofNat (48 + n)

/-- Lowercase hex digit for `n < 16` (`'a'` has code 97 = 87 + 10). -/
def hexChar (n : Nat) : Char := if n < 10 then digitChar n else Char.ofNat (87 + n)

/-- `{:02x}` rendering of a byte value `b < 256`: exactly two hex digits. -/
def hexPad2 (b : Nat) : List Char := [hexChar (b / 16), hexChar (b % 16)]

/-- Decimal digits of `n`, most significant first, with explicit fuel so the
definition is structural and kernel-evaluable. -/
def natToDigits (fuel : Nat) (n : Nat) : List Char :=
  match fuel with
  | 0 => []
  | f + 1 => if n < 10 then [digitChar n] else natToDigits f (n / 10) ++ [digitChar (n % 10)]

/-- `format!("{}", n)` for a nonnegative integer: decimal rendering. -/
def fmtDec (n : Nat) : List Char := natToDigits (n + 1) n

/-- The per-test network identity (struct `GuestNetworkConfig`). -/
structure GuestNetworkConfig where
  guest_ip : List Char
  host_ip : List Char
  guest_mac : List Char
  tap_name : List Char
deriving DecidableEq, Repr

/-- `"192.168.<c>"`, the subnet part shared by host and guest IP. -/
def subnetChars (c : Nat) : List Char :=
  '1' :: '9' :: '2' :: '.' :: '1' :: '6' :: '8' :: '.' :: fmtDec c

/-- `GuestNetworkConfig::new(counter: u8)`.  The six random MAC bytes are an
explicit input (`rand`); the code overwrites byte 0 with `0x2e` before
rendering `{:02x}` fields joined by `':'`.  `counter` is a `u8`, modelled as a
`Nat` (callers pass a value `< 256`); `rand` bytes are `u8`s, taken mod 256. -/
def GuestNetworkConfig.new (counter : Nat) (rand : Fin 6 → Nat) : GuestNetworkConfig :=
  let m : Fin 6 → Nat := fun i => if i = 0 then 0x2e else rand i % 256
  { guest_mac :=
      hexPad2 (m 0) ++ ':' :: hexPad2 (m 1) ++ ':' :: hexPad2 (m 2) ++ ':' ::
        hexPad2 (m 3) ++ ':' :: hexPad2 (m 4) ++ ':' :: hexPad2 (m 5)
    host_ip := subnetChars counter ++ ['.', '1']
    guest_ip := subnetChars counter ++ ['.', '2']
    tap_name := 'f' :: 'w' :: 't' :: 'a' :: 'p' :: fmtDec counter }

/-- `fwtap<c>` (the `tap_name` field). -/
def tapNameChars (c : Nat) : List Char := 'f' :: 'w' :: 't' :: 'a' :: 'p' :: fmtDec c

/-- Value read back from a digit string (left fold, base 10). -/
def digitsVal (l : List Char) : Nat := l.foldl (fun acc c => 10 * acc + (c.toNat - 48)) 0

/-! ### `str::replace` -/

/-- One scan of Rust's `str::replace(p, r)`: replace leftmost non-overlapping
occurrences of `p` by `r`, never rescanning the substituted value.  Structural
on `fuel` so it is kernel-evaluable; `replaceAll` supplies enough fuel. -/
def repFuel (p r : List Char) : Nat → List Char → List Char
  | 0, s => s
  | fuel + 1, s =>
    match s with
    | [] => []
    | c :: t => if p.isPrefixOf s then r ++ repFuel p r fuel (s.drop p.length)
                else c :: repFuel p r fuel t

/-- Rust's `s.replace(p, r)` (for the nonempty patterns used in the code). -/
def replaceAll (p r s : List Char) : List Char := repFuel p r s.length s

/-- The fixed host-IP placeholder `"192.168.2.1"`. -/
def hostTok : List Char := ['1', '9', '2', '.', '1', '6', '8', '.', '2', '.', '1']

/-- The fixed guest-IP placeholder `"192.168.2.2"`. -/
def guestTok : List Char := ['1', '9', '2', '.', '1', '6', '8', '.', '2', '.', '2']

/-- The fixed MAC placeholder `"12:34:56:78:90:ab"`. -/
def macTok : List Char :=
  ['1', '2', ':', '3', '4', ':', '5', '6', ':', '7', '8', ':', '9', '0', ':', 'a', 'b']

/-- The placeholder substitution both seeder variants perform on their
templated file: three successive `str::replace` passes, in source order
(host IP, then guest IP, then MAC). -/
def substituteIdentity (net : GuestNetworkConfig) (t : List Char) : List Char :=
  replaceAll macTok net.guest_mac
    (replaceAll guestTok net.guest_ip
      (replaceAll hostTok net.host_ip t))

/-- Modelled from the spec ("the template with every occurrence of the three
fixed placeholder tokens replaced by `I.hostIp`, `I.guestIp`, `I.guestMac`
respectively, and no other bytes altered"): a single simultaneous left-to-right
scan of the template, replacing each leftmost non-overlapping occurrence of any
of the three tokens by the corresponding value and copying every other byte
unchanged.  Structural on `fuel`; `replace3` supplies enough. -/
def rep3Fuel (r1 r2 r3 : List Char) : Nat → List Char → List Char
  | 0, s => s
  | fuel + 1, s =>
    match s with
    | [] => []
    | c :: t =>
      if hostTok.isPrefixOf s then r1 ++ rep3Fuel r1 r2 r3 fuel (s.drop 11)
      else if guestTok.isPrefixOf s then r2 ++ rep3Fuel r1 r2 r3 fuel (s.drop 11)
      else if macTok.isPrefixOf s then r3 ++ rep3Fuel r1 r2 r3 fuel (s.drop 17)
      else c :: rep3Fuel r1 r2 r3 fuel t

/-- Simultaneous replacement of the three placeholder tokens (spec side). -/
def replace3 (r1 r2 r3 s : List Char) : List Char := rep3Fuel r1 r2 r3 s.length s

/-- A template is follower-safe when no occurrence of the host-IP
placeholder is immediately followed by an ASCII digit.  (Replacing such an
occurrence can juxtapose the substituted counter digits with the following
text so that a later pass sees a token that was not in the template.) -/
def followerSafe (t : List Char) : Prop :=
  ∀ i, i < t.length → hostTok <+: t.drop i →
    ((t.drop (i + 11)).head?.all fun ch => ! ch.isDigit) = true

instance (t : List Char) : Decidable (followerSafe t) := by
  unfold followerSafe; infer_instance

/-- A template containing none of the three placeholder tokens. -/
def placeholderFree (t : List Char) : Prop :=
  ¬ hostTok <:+: t ∧ ¬ guestTok <:+: t ∧ ¬ macTok <:+: t

instance (t : List Char) : Decidable (placeholderFree t) := by
  unfold placeholderFree; infer_instance

/-- Every string reachable as the tail following a substituted value starts
with `'1'` (the first character of a substituted IP value) or with a
non-digit (a follower-safe template character). -/
def headOk (X : List Char) : Prop :=
  ∀ ch, X.head? = some ch → ch = '1' ∨ ch.isDigit = false

/-- `guestTok` without its leading `'1'`. -/
def guestTokTail : List Char := ['9', '2', '.', '1', '6', '8', '.', '2', '.', '2']

/-- `macTok` without its leading `'1'`. -/
def macTokTail : List Char :=
  ['2', ':', '3', '4', ':', '5', '6', ':', '7', '8', ':', '9', '0', ':', 'a', 'b']

/-! ### Seeder variants (`CloudInit::prepare`) -/

/-- Outcome of `std::process::Command::output()`: `spawnOk` is whether the
OS could launch the process at all (`Err` from `output()` only when not);
`exitCode` is the tool's exit status, captured but available to the caller. -/
structure ToolRun where
  spawnOk : Bool
  exitCode : Nat
deriving DecidableEq, Repr

/-- Environment of `ClearCloudInit::prepare`: outcomes of its file
operations and external tool invocations, plus the `user_data` template
contents read from `resources/`. -/
structure ClearEnv where
  createDirOk : Bool
  copyMetaOk : Bool
  readUserDataOk : Bool
  writeUserDataOk : Bool
  mkdosfs : ToolRun
  mcopy : ToolRun
  userData : List Char
deriving DecidableEq, Repr

/-- `ClearCloudInit::prepare`.  `none` models a panic (a failed `expect` /
`unwrap`); `some (path, content)` is the returned seed-image path together
with the templated `user_data` contents written into the image tree.
`Command::output()` is `Err` (and hence `expect` panics) only when the tool
could not be spawned; the exit status in a successful `output()` is never
inspected by the code. -/
def clearPrepare (tmpDir : List Char) (e : ClearEnv) (net : GuestNetworkConfig) :
    Option (List Char × List Char) :=
  if ¬ e.createDirOk then none
  else if ¬ e.copyMetaOk then none
  else if ¬ e.readUserDataOk then none
  else
    let content := substituteIdentity net e.userData
    if ¬ e.writeUserDataOk then none
    else if ¬ e.mkdosfs.spawnOk then none
    else if ¬ e.mcopy.spawnOk then none
    else some (tmpDir ++ ('/' :: 'c' :: 'l' :: 'o' :: 'u' :: 'd' :: 'i' :: 'n' :: 'i' :: 't' :: []), content)

/-- Environment of `UbuntuCloudInit::prepare` (flat layout, three `mcopy`
invocations; the templated file is `network-config`). -/
structure UbuntuEnv where
  createDirOk : Bool
  copyMetaDataOk : Bool
  copyUserDataOk : Bool
  readNetworkConfigOk : Bool
  writeNetworkConfigOk : Bool
  mkdosfs : ToolRun
  mcopy1 : ToolRun
  mcopy2 : ToolRun
  mcopy3 : ToolRun
  networkConfig : List Char
deriving DecidableEq, Repr

/-- `UbuntuCloudInit::prepare`, same conventions as `clearPrepare`. -/
def ubuntuPrepare (tmpDir : List Char) (e : UbuntuEnv) (net : GuestNetworkConfig) :
    Option (List Char × List Char) :=
  if ¬ e.createDirOk then none
  else if ¬ e.copyMetaDataOk then none
  else if ¬ e.copyUserDataOk then none
  else if ¬ e.readNetworkConfigOk then none
  else
    let content := substituteIdentity net e.networkConfig
    if ¬ e.writeNetworkConfigOk then none
    else if ¬ e.mkdosfs.spawnOk then none
    else if ¬ e.mcopy1.spawnOk then none
    else if ¬ e.mcopy2.spawnOk then none
    else if ¬ e.mcopy3.spawnOk then none
    else some (tmpDir ++ ('/' :: 'c' :: 'l' :: 'o' :: 'u' :: 'd' :: 'i' :: 'n' :: 'i' :: 't' :: []), content)

/-! ### `ssh_command` -/

/-- The five failure kinds of `enum SSHCommandError` (the payloads carry no
information the control flow uses, so they are dropped in the model). -/
inductive SSHError where
  | connection
  | handshake
  | authentication
  | channelSession
  | command
deriving DecidableEq, Repr

/-- Outcomes of the steps of one attempt (the closure inside the loop):
`TcpStream::connect`, `handshake`, `userauth_password`, `channel_session`,
`exec`, and the deliberately ignored `read_to_string` / `close` /
`wait_close` results, plus whatever output the read captured. -/
structure AttemptSpec where
  connectOk : Bool
  handshakeOk : Bool
  authOk : Bool
  channelOk : Bool
  execOk : Bool
  readOk : Bool
  closeOk : Bool
  waitCloseOk : Bool
  output : List Char
deriving DecidableEq, Repr

/-- The closure inside `ssh_command`'s loop.  Each fallible step maps its
error to the corresponding `SSHCommandError` kind via `map_err`; the results
of `read_to_string`, `close` and `wait_close` are bound to `_` and ignored,
so once `exec` succeeded the closure returns `Ok` regardless of them. -/
def runAttempt (a : AttemptSpec) : Except SSHError (List Char) :=
  if ¬ a.connectOk then .error .connection
  else if ¬ a.handshakeOk then .error .handshake
  else if ¬ a.authOk then .error .authentication
  else if ¬ a.channelOk then .error .channelSession
  else if ¬ a.execOk then .error .command
  else .ok a.output

/-- `DEFAULT_SSH_RETRIES` from the code. -/
def DEFAULT_SSH_RETRIES : Nat := 6

/-- `DEFAULT_SSH_TIMEOUT` from the code (base backoff in seconds). -/
def DEFAULT_SSH_TIMEOUT : Nat := 10

/-- Result of a call to `ssh_command`: final result, number of times the
attempt closure ran, and the list of sleep durations (seconds) in order. -/
structure SSHRun where
  result : Except SSHError (List Char)
  attempts : Nat
  sleeps : List Nat
deriving Repr

/-- The `loop` of `ssh_command`.  `counter` starts at 0; on failure it is
incremented and compared against `retries`; the sleep duration is the `u8`
product `timeout * counter` (hence the `% 256`) converted into seconds.
Structural on `fuel`; `DEFAULT_SSH_RETRIES` fuel is enough since `counter`
grows by one per iteration and the loop exits once it reaches `retries`. -/
def sshLoop (env : Nat → AttemptSpec) : Nat → Nat → SSHRun
  | 0, _ => ⟨.error .connection, 0, []⟩
  | fuel + 1, counter =>
    match runAttempt (env counter) with
    | .ok out => ⟨.ok out, 1, []⟩
    | .error e =>
      if counter + 1 ≥ DEFAULT_SSH_RETRIES then ⟨.error e, 1, []⟩
      else
        let rest := sshLoop env fuel (counter + 1)
        ⟨rest.result, rest.attempts + 1,
          DEFAULT_SSH_TIMEOUT * (counter + 1) % 256 :: rest.sleeps⟩

/-- `ssh_command(ip, command)`, with the network behaviour of attempt `k`
given by `env k`.  (The guest IP and command string do not influence the
control flow; the successful attempt's captured output is returned.) -/
def ssh_command (env : Nat → AttemptSpec) : SSHRun :=
  sshLoop env DEFAULT_SSH_RETRIES 0

/-! ### `test_boot` -/

/-- Externally visible actions of one `test_boot` run, in order. -/
inductive Ev where
  | tapAdd (name : List Char)
  | tapAddr (ip name : List Char)
  | tapUp (name : List Char)
  | vmmSpawn (tap mac : List Char)
  | dwell (secs : Nat)
  | sshCmd (ip : List Char)
  | vmmKill
  | vmmWait
  | tapDel (name : List Char)
deriving DecidableEq, Repr

/-- Environment of a `test_boot` run: whether seed/disk preparation
succeeded, the exit status of each privileged `ip` command, and the network
behaviour seen by `ssh_command`. -/
structure BootEnv where
  prepareOk : Bool
  osDiskOk : Bool
  tapAddOk : Bool
  tapAddrOk : Bool
  tapUpOk : Bool
  tapDelOk : Bool
  ssh : Nat → AttemptSpec

/-- `as u8`: the truncation `test_boot` applies to the process-wide counter
before passing it to `GuestNetworkConfig::new`. -/
def u8cast (n : Nat) : Nat := n % 256

/-- One `test_boot` run: returns the trace of external actions and whether
the test completed (i.e. no `expect`/`assert!` panicked).  The `ip` commands
of `prepare_tap` are each wrapped in `assert!(..., success())`, so a failing
one stops the run after its event; `ssh_command(...).expect(...)` panics on
`Err`, stopping the run before `kill`/`wait`/`cleanup_tap`. -/
def test_boot (e : BootEnv) (counter : Nat) (rand : Fin 6 → Nat) : List Ev × Bool :=
  let net := GuestNetworkConfig.new (u8cast counter) rand
  if ¬ e.prepareOk then ([], false)
  else if ¬ e.osDiskOk then ([], false)
  else
    let t1 := [Ev.tapAdd net.tap_name]
    if ¬ e.tapAddOk then (t1, false)
    else
      let t2 := t1 ++ [Ev.tapAddr net.host_ip net.tap_name]
      if ¬ e.tapAddrOk then (t2, false)
      else
        let t3 := t2 ++ [Ev.tapUp net.tap_name]
        if ¬ e.tapUpOk then (t3, false)
        else
          let t4 := t3 ++ [Ev.vmmSpawn net.tap_name net.guest_mac, Ev.dwell 20,
                           Ev.sshCmd net.guest_ip]
          match (ssh_command e.ssh).result with
          | .error _ => (t4, false)
          | .ok _ =>
            let t5 := t4 ++ [Ev.vmmKill, Ev.vmmWait, Ev.tapDel net.tap_name]
            (t5, e.tapDelOk)

/-- Count of interface-creation events in a trace. -/
def numTapAdds (t : List Ev) : Nat :=
  t.countP fun ev => match ev with | .tapAdd _ => true | _ => false

/-- Count of interface-deletion events in a trace. -/
def numTapDels (t : List Ev) : Nat :=
  t.countP fun ev => match ev with | .tapDel _ => true | _ => false

/-- Count of VMM spawn events in a trace. -/
def numSpawns (t : List Ev) : Nat :=
  t.countP fun ev => match ev with | .vmmSpawn _ _ => true | _ => false

/-! ### Concrete environments used to instantiate theorems -/

/-- Zero random bytes. -/
def randZero : Fin 6 → Nat := fun _ => 0

/-- An attempt in which every step succeeds and `"ok"` is read. -/
def specOk : AttemptSpec :=
  ⟨true, true, true, true, true, true, true, true, ['o', 'k']⟩

/-- An attempt whose TCP connection fails (unreachable guest). -/
def specConnFail : AttemptSpec :=
  ⟨false, true, true, true, true, true, true, true, []⟩

/-- An attempt in which the five fallible steps succeed but reading the
output and closing the channel fail. -/
def specReadFail : AttemptSpec :=
  ⟨true, true, true, true, true, false, false, false, []⟩

/-- A `test_boot` environment in which everything succeeds. -/
def envGood : BootEnv :=
  ⟨true, true, true, true, true, true, fun _ => specOk⟩

/-- A `test_boot` environment in which the guest never becomes reachable. -/
def envSshFail : BootEnv :=
  ⟨true, true, true, true, true, true, fun _ => specConnFail⟩

/-- A seeder environment in which every I/O step and both tool spawns
succeed but `mkdosfs` exits with status 1. -/
def clearEnvExit1 : ClearEnv :=
  ⟨true, true, true, true, ⟨true, 1⟩, ⟨true, 0⟩, []⟩

/-- Same, with `mcopy` exiting with status 2. -/
def clearEnvMcopyExit2 : ClearEnv :=
  ⟨true, true, true, true, ⟨true, 0⟩, ⟨true, 2⟩, []⟩

/-- Ubuntu variant of `clearEnvExit1`. -/
def ubuntuEnvExit1 : UbuntuEnv :=
  ⟨true, true, true, true, true, ⟨true, 1⟩, ⟨true, 0⟩, ⟨true, 0⟩, ⟨true, 0⟩, []⟩

/-- A seeder environment in which `mkdosfs` cannot even be spawned. -/
def clearEnvSpawnFail : ClearEnv :=
  ⟨true, true, true, true, ⟨false, 0⟩, ⟨true, 0⟩, []⟩

/-- The identity used in concrete instantiations (counter 6, zero rand). -/
def net6 : GuestNetworkConfig := GuestNetworkConfig.new 6 randZero

/-- The identity with counter 5 used in the substitution counterexample. -/
def net5 : GuestNetworkConfig := GuestNetworkConfig.new 5 randZero

/-- `"192.168.2.192.168.2.2"`: a template in which the host-IP placeholder
(at offset 0) is immediately followed by the digit `'9'`, and a guest-IP
placeholder occurrence (at offset 10) overlaps it. -/
def tBad : List Char :=
  ['1', '9', '2', '.', '1', '6', '8', '.', '2', '.', '1',
   '9', '2', '.', '1', '6', '8', '.', '2', '.', '2']

/-- `"ip: 192.168.2.1/24 gw: 192.168.2.2 hw: 12:34:56:78:90:ab"` —
a realistic template: each placeholder occurs once, the host-IP occurrence
followed by `'/'`. -/
def tSafe : List Char :=
  ['i', 'p', ':', ' ',
   '1', '9', '2', '.', '1', '6', '8', '.', '2', '.', '1', '/', '2', '4', ' ',
   'g', 'w', ':', ' ',
   '1', '9', '2', '.', '1', '6', '8', '.', '2', '.', '2', ' ',
   'h', 'w', ':', ' ',
   '1', '2', ':', '3', '4', ':', '5', '6', ':', '7', '8', ':', '9', '0', ':', 'a', 'b']

/-- `"no tokens here"`. -/
def tFree : List Char :=
  ['n', 'o', ' ', 't', 'o', 'k', 'e', 'n', 's', ' ', 'h', 'e', 'r', 'e']

/-- The expected backoff schedule before attempt `n + 1`:
`[10 * 1, …, 10 * n]` seconds. -/
def backoffList (n : Nat) : List Nat :=
  (List.range n).map fun i => DEFAULT_SSH_TIMEOUT * (i + 1)

/-- An ssh environment whose first two attempts fail to connect and whose
third succeeds. -/
def env2fail : Nat → AttemptSpec := fun k => if k < 2 then specConnFail else specOk

/-! ## Theorems -/

/-! ### Decimal rendering facts -/


theorem natToDigits_fuel_irrelevant :
    ∀ f g n : Nat, n < f → n < g → natToDigits f n = natToDigits g n := by
  intro f
  induction f with
  | zero => intro g n h; omega
  | succ f ih =>
    intro g n hf hg
    match g, hg with
    | g + 1, _ =>
      by_cases h10 : n < 10
      · simp [natToDigits, h10]
      · have hdiv : n / 10 < n := Nat.div_lt_self (by omega) (by omega)
        simp only [natToDigits, h10, if_false]
        rw [ih g (n / 10) (by omega) (by omega)]

theorem fmtDec_eq_of_ge (n : Nat) (h : ¬ n < 10) :
    fmtDec n = fmtDec (n / 10) ++ [digitChar (n % 10)] := by
  have hdiv : n / 10 < n := Nat.div_lt_self (by omega) (by omega)
  show natToDigits (n + 1) n = _
  rw [show natToDigits (n + 1) n =
        if n < 10 then [digitChar n] else natToDigits n (n / 10) ++ [digitChar (n % 10)] from rfl]
  simp only [h, if_false]
  rw [natToDigits_fuel_irrelevant n (n / 10 + 1) (n / 10) (by omega) (by omega)]
  rfl

theorem digitsVal_go (a : Nat) (l : List Char) :
    l.foldl (fun acc c => 10 * acc + (c.toNat - 48)) a =
      a * 10 ^ l.length + digitsVal l := by
  induction l generalizing a with
  | nil => simp [digitsVal]
  | cons c t ih =>
    simp only [List.foldl_cons, digitsVal, List.length_cons]
    rw [ih, ih (10 * 0 + (c.toNat - 48))]
    ring

theorem digitChar_toNat (n : Nat) (h : n < 10) : (digitChar n).toNat = 48 + n := by
  interval_cases n <;> decide

theorem digitsVal_fmtDec (n : Nat) : digitsVal (fmtDec n) = n := by
  induction n using Nat.strong_induction_on with
  | _ n ih =>
    by_cases h10 : n < 10
    · show digitsVal (natToDigits (n + 1) n) = n
      match n, h10 with
      | n + 1, h10 => simp [natToDigits, h10, digitsVal, digitChar_toNat _ h10]
      | 0, _ => decide
    · have hdiv : n / 10 < n := Nat.div_lt_self (by omega) (by omega)
      rw [fmtDec_eq_of_ge n h10]
      simp only [digitsVal, List.foldl_append]
      rw [show (fmtDec (n / 10)).foldl (fun acc c => 10 * acc + (c.toNat - 48)) 0 =
            digitsVal (fmtDec (n / 10)) from rfl, ih (n / 10) hdiv]
      simp [digitChar_toNat (n % 10) (by omega)]
      omega

theorem fmtDec_injective {a b : Nat} (h : fmtDec a = fmtDec b) : a = b := by
  have := digitsVal_fmtDec a
  rw [h, digitsVal_fmtDec b] at this
  omega

theorem digitChar_isDigit (n : Nat) (h : n < 10) : (digitChar n).isDigit = true := by
  interval_cases n <;> decide

theorem fmtDec_digits (n : Nat) : ∀ c ∈ fmtDec n, c.isDigit = true := by
  induction n using Nat.strong_induction_on with
  | _ n ih =>
    by_cases h10 : n < 10
    · show ∀ c ∈ natToDigits (n + 1) n, c.isDigit = true
      match n, h10 with
      | n + 1, h10 => simpa [natToDigits, h10] using digitChar_isDigit _ h10
      | 0, _ => decide
    · have hdiv : n / 10 < n := Nat.div_lt_self (by omega) (by omega)
      rw [fmtDec_eq_of_ge n h10]
      intro c hc
      rcases List.mem_append.mp hc with hc | hc
      · exact ih (n / 10) hdiv c hc
      · simp only [List.mem_singleton] at hc
        subst hc; exact digitChar_isDigit _ (by omega)

theorem fmtDec_ne_nil (n : Nat) : fmtDec n ≠ [] := by
  by_cases h10 : n < 10
  · show natToDigits (n + 1) n ≠ []
    match n, h10 with
    | n + 1, h10 => simp [natToDigits, h10]
    | 0, _ => decide
  · rw [fmtDec_eq_of_ge n h10]; simp

/-! ### Claim theorems: network identity (C6, C7, C10) -/

/-- C6: for every identity produced by `GuestNetworkConfig::new` (any counter
and random bytes), the rendered MAC starts with octet `0x2e = 0b0010_1110`,
whose locally-administered bit (bit 1) is set and whose multicast bit
(bit 0) is clear. -/
theorem C6_mac_locally_administered (c : Nat) (rand : Fin 6 → Nat) :
    (GuestNetworkConfig.new c rand).guest_mac =
      hexPad2 0x2e ++ ':' :: hexPad2 (rand 1 % 256) ++ ':' :: hexPad2 (rand 2 % 256) ++ ':' ::
        hexPad2 (rand 3 % 256) ++ ':' :: hexPad2 (rand 4 % 256) ++ ':' :: hexPad2 (rand 5 % 256) ∧
    hexPad2 0x2e = ['2', 'e'] ∧
    Nat.testBit 0x2e 1 = true ∧ Nat.testBit 0x2e 0 = false := by
  refine ⟨?_, by decide, by decide, by decide⟩
  simp [GuestNetworkConfig.new]

/-- C7: two identities generated from distinct `u8` counters have disjoint
/24 subnets (host and guest IP share the `192.168.<c>` prefix, and those
prefixes differ) and distinct interface names. -/
theorem C7_distinct_identities (c1 c2 : Nat) (r1 r2 : Fin 6 → Nat)
    (h1 : c1 < 256) (h2 : c2 < 256) (hne : c1 ≠ c2) :
    (GuestNetworkConfig.new c1 r1).host_ip = subnetChars c1 ++ ['.', '1'] ∧
    (GuestNetworkConfig.new c1 r1).guest_ip = subnetChars c1 ++ ['.', '2'] ∧
    subnetChars c1 ≠ subnetChars c2 ∧
    (GuestNetworkConfig.new c1 r1).tap_name ≠ (GuestNetworkConfig.new c2 r2).tap_name ∧
    (GuestNetworkConfig.new c1 r1).host_ip ≠ (GuestNetworkConfig.new c2 r2).host_ip ∧
    (GuestNetworkConfig.new c1 r1).guest_ip ≠ (GuestNetworkConfig.new c2 r2).guest_ip := by
  have hfmt : fmtDec c1 ≠ fmtDec c2 := fun h => hne (fmtDec_injective h)
  have hsub : subnetChars c1 ≠ subnetChars c2 := by
    intro h; exact hfmt (by simpa [subnetChars] using h)
  refine ⟨rfl, rfl, hsub, ?_, ?_, ?_⟩
  · intro h; exact hfmt (by simpa [GuestNetworkConfig.new] using h)
  · intro h
    exact hsub (List.append_cancel_right
      (show subnetChars c1 ++ ['.', '1'] = subnetChars c2 ++ ['.', '1'] from h))
  · intro h
    exact hsub (List.append_cancel_right
      (show subnetChars c1 ++ ['.', '2'] = subnetChars c2 ++ ['.', '2'] from h))

theorem C7_witness :
    (0 : Nat) < 256 ∧ (1 : Nat) < 256 ∧ (0 : Nat) ≠ 1 ∧
    (GuestNetworkConfig.new 0 randZero).tap_name ≠ (GuestNetworkConfig.new 1 randZero).tap_name :=
  ⟨by decide, by decide, by decide,
    (C7_distinct_identities 0 1 randZero randZero (by decide) (by decide)
      (by decide)).2.2.2.1⟩

/-- C10: `GuestNetworkConfig::new` takes a `u8`, and `test_boot` truncates
the process-wide counter with `as u8`, so counters congruent mod 256 yield
identical host IP, guest IP and interface name (and identical orchestrator
behaviour given the same environment and random bytes). -/
theorem C10_u8_truncation (n1 n2 : Nat) (r1 r2 : Fin 6 → Nat) (e : BootEnv)
    (r : Fin 6 → Nat) (h : n1 % 256 = n2 % 256) :
    (GuestNetworkConfig.new (u8cast n1) r1).host_ip =
      (GuestNetworkConfig.new (u8cast n2) r2).host_ip ∧
    (GuestNetworkConfig.new (u8cast n1) r1).guest_ip =
      (GuestNetworkConfig.new (u8cast n2) r2).guest_ip ∧
    (GuestNetworkConfig.new (u8cast n1) r1).tap_name =
      (GuestNetworkConfig.new (u8cast n2) r2).tap_name ∧
    test_boot e n1 r = test_boot e n2 r := by
  have hc : u8cast n1 = u8cast n2 := h
  refine ⟨?_, ?_, ?_, ?_⟩ <;> simp [GuestNetworkConfig.new, test_boot, hc]

theorem C10_witness :
    6 % 256 = 262 % 256 ∧ test_boot envGood 6 randZero = test_boot envGood 262 randZero :=
  ⟨by decide, (C10_u8_truncation 6 262 randZero randZero envGood randZero (by decide)).2.2.2⟩

/-! ### Claim theorem: seeder tool failures (C1) -/

/-- C1 (code bug): a non-zero exit status of `mkdosfs` or `mcopy` is NOT
fatal to `prepare` — `Command::output()` is `Err` only when the process
cannot be spawned, and neither variant inspects the captured exit status —
so `prepare` still returns the seed-image path.  Only a spawn failure
panics the `expect`. -/
theorem C1_nonzero_exit_not_fatal :
    clearEnvExit1.mkdosfs.exitCode = 1 ∧
    (clearPrepare [] clearEnvExit1 net6).isSome = true ∧
    clearEnvMcopyExit2.mcopy.exitCode = 2 ∧
    (clearPrepare [] clearEnvMcopyExit2 net6).isSome = true ∧
    ubuntuEnvExit1.mkdosfs.exitCode = 1 ∧
    (ubuntuPrepare [] ubuntuEnvExit1 net6).isSome = true ∧
    clearPrepare [] clearEnvSpawnFail net6 = none := by
  decide

/-! ### Claim theorems: ssh_command (C2, C3, C4) -/

theorem sshLoop_ok {env : Nat → AttemptSpec} {c out : _} (f : Nat)
    (h : runAttempt (env c) = .ok out) :
    sshLoop env (f + 1) c = ⟨.ok out, 1, []⟩ := by
  simp [sshLoop, h]

theorem sshLoop_err_last {env : Nat → AttemptSpec} {c : Nat} {e : SSHError} (f : Nat)
    (h : runAttempt (env c) = .error e) (hge : c + 1 ≥ DEFAULT_SSH_RETRIES) :
    sshLoop env (f + 1) c = ⟨.error e, 1, []⟩ := by
  simp [sshLoop, h, hge]

theorem sshLoop_err_cont {env : Nat → AttemptSpec} {c : Nat} {e : SSHError} (f : Nat)
    (h : runAttempt (env c) = .error e) (hlt : c + 1 < DEFAULT_SSH_RETRIES) :
    sshLoop env (f + 1) c =
      ⟨(sshLoop env f (c + 1)).result, (sshLoop env f (c + 1)).attempts + 1,
        DEFAULT_SSH_TIMEOUT * (c + 1) % 256 :: (sshLoop env f (c + 1)).sleeps⟩ := by
  simp [sshLoop, h, Nat.not_le.mpr hlt]

/-- C2: if the first attempt's five fallible steps all succeed,
`ssh_command` returns `Ok` after exactly one attempt; if every attempt
fails in one of those steps, it performs exactly
`DEFAULT_SSH_RETRIES = 6` attempts — no more, no fewer — and returns the
error. -/
theorem C2_attempt_counts (env : Nat → AttemptSpec) :
    (∀ out, runAttempt (env 0) = .ok out →
      (ssh_command env).result = .ok out ∧ (ssh_command env).attempts = 1) ∧
    ((∀ k, k < DEFAULT_SSH_RETRIES → ∃ e, runAttempt (env k) = .error e) →
      (ssh_command env).attempts = DEFAULT_SSH_RETRIES ∧
      ∃ e, (ssh_command env).result = .error e) := by
  constructor
  · intro out h
    show (sshLoop env (5 + 1) 0).result = _ ∧ (sshLoop env (5 + 1) 0).attempts = 1
    rw [sshLoop_ok 5 h]
    exact ⟨rfl, rfl⟩
  · intro hf
    obtain ⟨e0, h0⟩ := hf 0 (by decide)
    obtain ⟨e1, h1⟩ := hf 1 (by decide)
    obtain ⟨e2, h2⟩ := hf 2 (by decide)
    obtain ⟨e3, h3⟩ := hf 3 (by decide)
    obtain ⟨e4, h4⟩ := hf 4 (by decide)
    obtain ⟨e5, h5⟩ := hf 5 (by decide)
    show (sshLoop env (5 + 1) 0).attempts = DEFAULT_SSH_RETRIES ∧
      ∃ e, (sshLoop env (5 + 1) 0).result = Except.error e
    rw [sshLoop_err_cont 5 h0 (by decide), sshLoop_err_cont 4 h1 (by decide),
        sshLoop_err_cont 3 h2 (by decide), sshLoop_err_cont 2 h3 (by decide),
        sshLoop_err_cont 1 h4 (by decide), sshLoop_err_last 0 h5 (by decide)]
    exact ⟨rfl, e5, rfl⟩

theorem C2_witness :
    runAttempt (envGood.ssh 0) = .ok ['o', 'k'] ∧
    (ssh_command envGood.ssh).attempts = 1 ∧
    (∀ k, k < DEFAULT_SSH_RETRIES → ∃ e, runAttempt (envSshFail.ssh k) = .error e) ∧
    (ssh_command envSshFail.ssh).attempts = DEFAULT_SSH_RETRIES :=
  ⟨rfl, ((C2_attempt_counts envGood.ssh).1 ['o', 'k'] rfl).2,
    fun k _ => ⟨SSHError.connection, rfl⟩,
    ((C2_attempt_counts envSshFail.ssh).2 fun k _ => ⟨SSHError.connection, rfl⟩).1⟩

/-- C3: between failed attempt `n` and attempt `n + 1` the loop sleeps
exactly `DEFAULT_SSH_TIMEOUT * n = 10 * n` seconds (linear backoff); there
is no sleep before the first attempt, after a success, or after the final
failed attempt — a run of `n` failures followed by a success sleeps exactly
`[10, …, 10 n]`, and an exhausted run sleeps exactly `[10, 20, 30, 40, 50]`
around its 6 attempts. -/
theorem C3_linear_backoff (env : Nat → AttemptSpec) :
    (∀ n out, n < DEFAULT_SSH_RETRIES →
      (∀ k, k < n → ∃ e, runAttempt (env k) = .error e) →
      runAttempt (env n) = .ok out →
      (ssh_command env).sleeps = backoffList n ∧
      (ssh_command env).attempts = n + 1) ∧
    ((∀ k, k < DEFAULT_SSH_RETRIES → ∃ e, runAttempt (env k) = .error e) →
      (ssh_command env).sleeps = [10, 20, 30, 40, 50] ∧
      (ssh_command env).attempts = DEFAULT_SSH_RETRIES) := by
  constructor
  · intro n out hn hf hok
    have hn' : n < 6 := hn
    show (sshLoop env (5 + 1) 0).sleeps = backoffList n ∧
      (sshLoop env (5 + 1) 0).attempts = n + 1
    interval_cases n
    · rw [sshLoop_ok 5 hok]
      refine ⟨?_, rfl⟩
      simp [backoffList]
    · obtain ⟨e0, h0⟩ := hf 0 (by decide)
      rw [sshLoop_err_cont 5 h0 (by decide), sshLoop_ok 4 hok]
      refine ⟨?_, rfl⟩
      simp [backoffList, DEFAULT_SSH_TIMEOUT, List.range_succ]
    · obtain ⟨e0, h0⟩ := hf 0 (by decide)
      obtain ⟨e1, h1⟩ := hf 1 (by decide)
      rw [sshLoop_err_cont 5 h0 (by decide), sshLoop_err_cont 4 h1 (by decide),
          sshLoop_ok 3 hok]
      refine ⟨?_, rfl⟩
      simp [backoffList, DEFAULT_SSH_TIMEOUT, List.range_succ]
    · obtain ⟨e0, h0⟩ := hf 0 (by decide)
      obtain ⟨e1, h1⟩ := hf 1 (by decide)
      obtain ⟨e2, h2⟩ := hf 2 (by decide)
      rw [sshLoop_err_cont 5 h0 (by decide), sshLoop_err_cont 4 h1 (by decide),
          sshLoop_err_cont 3 h2 (by decide), sshLoop_ok 2 hok]
      refine ⟨?_, rfl⟩
      simp [backoffList, DEFAULT_SSH_TIMEOUT, List.range_succ]
    · obtain ⟨e0, h0⟩ := hf 0 (by decide)
      obtain ⟨e1, h1⟩ := hf 1 (by decide)
      obtain ⟨e2, h2⟩ := hf 2 (by decide)
      obtain ⟨e3, h3⟩ := hf 3 (by decide)
      rw [sshLoop_err_cont 5 h0 (by decide), sshLoop_err_cont 4 h1 (by decide),
          sshLoop_err_cont 3 h2 (by decide), sshLoop_err_cont 2 h3 (by decide),
          sshLoop_ok 1 hok]
      refine ⟨?_, rfl⟩
      simp [backoffList, DEFAULT_SSH_TIMEOUT, List.range_succ]
    · obtain ⟨e0, h0⟩ := hf 0 (by decide)
      obtain ⟨e1, h1⟩ := hf 1 (by decide)
      obtain ⟨e2, h2⟩ := hf 2 (by decide)
      obtain ⟨e3, h3⟩ := hf 3 (by decide)
      obtain ⟨e4, h4⟩ := hf 4 (by decide)
      rw [sshLoop_err_cont 5 h0 (by decide), sshLoop_err_cont 4 h1 (by decide),
          sshLoop_err_cont 3 h2 (by decide), sshLoop_err_cont 2 h3 (by decide),
          sshLoop_err_cont 1 h4 (by decide), sshLoop_ok 0 hok]
      refine ⟨?_, rfl⟩
      simp [backoffList, DEFAULT_SSH_TIMEOUT, List.range_succ]
  · intro hf
    obtain ⟨e0, h0⟩ := hf 0 (by decide)
    obtain ⟨e1, h1⟩ := hf 1 (by decide)
    obtain ⟨e2, h2⟩ := hf 2 (by decide)
    obtain ⟨e3, h3⟩ := hf 3 (by decide)
    obtain ⟨e4, h4⟩ := hf 4 (by decide)
    obtain ⟨e5, h5⟩ := hf 5 (by decide)
    show (sshLoop env (5 + 1) 0).sleeps = _ ∧ (sshLoop env (5 + 1) 0).attempts = _
    rw [sshLoop_err_cont 5 h0 (by decide), sshLoop_err_cont 4 h1 (by decide),
        sshLoop_err_cont 3 h2 (by decide), sshLoop_err_cont 2 h3 (by decide),
        sshLoop_err_cont 1 h4 (by decide), sshLoop_err_last 0 h5 (by decide)]
    refine ⟨?_, rfl⟩
    simp [DEFAULT_SSH_TIMEOUT]

theorem C3_witness :
    (2 : Nat) < DEFAULT_SSH_RETRIES ∧
    runAttempt (env2fail 2) = .ok ['o', 'k'] ∧
    (ssh_command env2fail).sleeps = backoffList 2 ∧
    (ssh_command env2fail).attempts = 3 := by
  have h := (C3_linear_backoff env2fail).1 2 ['o', 'k'] (by decide)
    (fun k hk => ⟨SSHError.connection, by
      have he : env2fail k = specConnFail := by simp [env2fail, hk]
      rw [he]
      rfl⟩)
    rfl
  exact ⟨by decide, rfl, h.1, h.2⟩

/-- C4: `ssh_command` distinguishes the five failure kinds of
`SSHCommandError` (one per fallible step, in order); a success stops the
loop at once; exhausting the budget surfaces the last attempt's kind; and a
failure of step (e) — reading the output or closing the channel — is
ignored: the attempt still counts as a success and returns the captured
output. -/
theorem C4_error_kinds :
    (∀ a : AttemptSpec, a.connectOk = true → a.handshakeOk = true → a.authOk = true →
      a.channelOk = true → a.execOk = true → runAttempt a = .ok a.output) ∧
    (∀ a : AttemptSpec, a.connectOk = false → runAttempt a = .error .connection) ∧
    (∀ a : AttemptSpec, a.connectOk = true → a.handshakeOk = false →
      runAttempt a = .error .handshake) ∧
    (∀ a : AttemptSpec, a.connectOk = true → a.handshakeOk = true → a.authOk = false →
      runAttempt a = .error .authentication) ∧
    (∀ a : AttemptSpec, a.connectOk = true → a.handshakeOk = true → a.authOk = true →
      a.channelOk = false → runAttempt a = .error .channelSession) ∧
    (∀ a : AttemptSpec, a.connectOk = true → a.handshakeOk = true → a.authOk = true →
      a.channelOk = true → a.execOk = false → runAttempt a = .error .command) ∧
    (∀ env out, runAttempt (env 0) = .ok out → (ssh_command env).attempts = 1) ∧
    (∀ env (es : Nat → SSHError),
      (∀ k, k < DEFAULT_SSH_RETRIES → runAttempt (env k) = .error (es k)) →
      (ssh_command env).result = .error (es 5)) := by
  refine ⟨?_, ?_, ?_, ?_, ?_, ?_, ?_, ?_⟩
  · intro a h1 h2 h3 h4 h5; simp [runAttempt, h1, h2, h3, h4, h5]
  · intro a h1; simp [runAttempt, h1]
  · intro a h1 h2; simp [runAttempt, h1, h2]
  · intro a h1 h2 h3; simp [runAttempt, h1, h2, h3]
  · intro a h1 h2 h3 h4; simp [runAttempt, h1, h2, h3, h4]
  · intro a h1 h2 h3 h4 h5; simp [runAttempt, h1, h2, h3, h4, h5]
  · intro env out h
    show (sshLoop env (5 + 1) 0).attempts = 1
    rw [sshLoop_ok 5 h]
  · intro env es hf
    show (sshLoop env (5 + 1) 0).result = _
    rw [sshLoop_err_cont 5 (hf 0 (by decide)) (by decide),
        sshLoop_err_cont 4 (hf 1 (by decide)) (by decide),
        sshLoop_err_cont 3 (hf 2 (by decide)) (by decide),
        sshLoop_err_cont 2 (hf 3 (by decide)) (by decide),
        sshLoop_err_cont 1 (hf 4 (by decide)) (by decide),
        sshLoop_err_last 0 (hf 5 (by decide)) (by decide)]

theorem C4_witness :
    specReadFail.connectOk = true ∧ specReadFail.handshakeOk = true ∧
    specReadFail.authOk = true ∧ specReadFail.channelOk = true ∧
    specReadFail.execOk = true ∧ specReadFail.readOk = false ∧
    specReadFail.closeOk = false ∧ runAttempt specReadFail = .ok [] :=
  ⟨rfl, rfl, rfl, rfl, rfl, rfl, rfl,
    C4_error_kinds.1 specReadFail rfl rfl rfl rfl rfl⟩

/-! ### Claim theorems: test_boot (C8, C9) -/

/-- C8: in every completed (non-panicking) `test_boot` run, exactly one
virtual interface is created, it is created before the VMM is spawned, and
teardown kills and then waits on the VMM before deleting the interface
under the very name it was created with — the full trace is the nine
events below, in order. -/
theorem C8_lifecycle (e : BootEnv) (c : Nat) (r : Fin 6 → Nat)
    (h : (test_boot e c r).2 = true) :
    (test_boot e c r).1 =
      [Ev.tapAdd (GuestNetworkConfig.new (u8cast c) r).tap_name,
       Ev.tapAddr (GuestNetworkConfig.new (u8cast c) r).host_ip
         (GuestNetworkConfig.new (u8cast c) r).tap_name,
       Ev.tapUp (GuestNetworkConfig.new (u8cast c) r).tap_name,
       Ev.vmmSpawn (GuestNetworkConfig.new (u8cast c) r).tap_name
         (GuestNetworkConfig.new (u8cast c) r).guest_mac,
       Ev.dwell 20,
       Ev.sshCmd (GuestNetworkConfig.new (u8cast c) r).guest_ip,
       Ev.vmmKill, Ev.vmmWait,
       Ev.tapDel (GuestNetworkConfig.new (u8cast c) r).tap_name] ∧
    numTapAdds (test_boot e c r).1 = 1 ∧
    numTapDels (test_boot e c r).1 = 1 ∧
    numSpawns (test_boot e c r).1 = 1 := by
  suffices htr : (test_boot e c r).1 =
      [Ev.tapAdd (GuestNetworkConfig.new (u8cast c) r).tap_name,
       Ev.tapAddr (GuestNetworkConfig.new (u8cast c) r).host_ip
         (GuestNetworkConfig.new (u8cast c) r).tap_name,
       Ev.tapUp (GuestNetworkConfig.new (u8cast c) r).tap_name,
       Ev.vmmSpawn (GuestNetworkConfig.new (u8cast c) r).tap_name
         (GuestNetworkConfig.new (u8cast c) r).guest_mac,
       Ev.dwell 20,
       Ev.sshCmd (GuestNetworkConfig.new (u8cast c) r).guest_ip,
       Ev.vmmKill, Ev.vmmWait,
       Ev.tapDel (GuestNetworkConfig.new (u8cast c) r).tap_name] by
    refine ⟨htr, ?_, ?_, ?_⟩ <;>
      simp [htr, numTapAdds, numTapDels, numSpawns, List.countP_cons]
  unfold test_boot at h ⊢
  split_ifs at h ⊢ <;> try simp_all
  revert h
  cases (ssh_command e.ssh).result with
  | error err => intro h; simp at h
  | ok out => intro h; rfl

theorem C8_witness :
    (test_boot envGood 6 randZero).2 = true ∧
    numTapAdds (test_boot envGood 6 randZero).1 = 1 ∧
    numTapDels (test_boot envGood 6 randZero).1 = 1 :=
  ⟨by decide, (C8_lifecycle envGood 6 randZero (by decide)).2.1,
    (C8_lifecycle envGood 6 randZero (by decide)).2.2.1⟩

/-- C9: there is an execution of `test_boot` — everything succeeds up to and
including the VMM spawn, but the remote shutdown command fails — in which
the run stops (the `expect` on `ssh_command` panics) with the interface
created and the VMM spawned, and the VMM is never killed or awaited and the
interface is never deleted. -/
theorem C9_leak_on_ssh_failure :
    (test_boot envSshFail 6 randZero).2 = false ∧
    numTapAdds (test_boot envSshFail 6 randZero).1 = 1 ∧
    numSpawns (test_boot envSshFail 6 randZero).1 = 1 ∧
    numTapDels (test_boot envSshFail 6 randZero).1 = 0 ∧
    Ev.vmmKill ∉ (test_boot envSshFail 6 randZero).1 ∧
    Ev.vmmWait ∉ (test_boot envSshFail 6 randZero).1 := by
  decide

/-! ### Claim C5: toolkit for `str::replace` -/

theorem repFuel_fi (p r : List Char) (hp : p ≠ []) :
    ∀ f g s, s.length ≤ f → s.length ≤ g → repFuel p r f s = repFuel p r g s := by
  intro f
  induction f with
  | zero =>
    intro g s hf _
    have hs : s = [] := List.length_eq_zero.mp (Nat.le_zero.mp hf)
    subst hs
    cases g <;> rfl
  | succ f ih =>
    intro g s hf hg
    cases s with
    | nil => cases g <;> rfl
    | cons c t =>
      match g, hg with
      | g + 1, hg =>
        have hp1 : 0 < p.length := List.length_pos.mpr hp
        simp only [repFuel]
        by_cases hpre : p.isPrefixOf (c :: t) = true
        · simp only [if_pos hpre]
          congr 1
          apply ih
          · simp only [List.length_drop, List.length_cons]
            simp only [List.length_cons] at hf
            omega
          · simp only [List.length_drop, List.length_cons]
            simp only [List.length_cons] at hg
            omega
        · simp only [if_neg hpre]
          congr 1
          apply ih
          · simp only [List.length_cons] at hf; omega
          · simp only [List.length_cons] at hg; omega

theorem replaceAll_neg {p : List Char} (r : List Char) {c : Char} {t : List Char}
    (h : ¬ p <+: (c :: t)) :
    replaceAll p r (c :: t) = c :: replaceAll p r t := by
  have hb : p.isPrefixOf (c :: t) = false := by
    rw [Bool.eq_false_iff]
    intro hc
    exact h (List.isPrefixOf_iff_prefix.mp hc)
  show repFuel p r (t.length + 1) (c :: t) = _
  simp only [repFuel]
  rw [if_neg (by simp [hb])]
  rfl

theorem replaceAll_pos {p : List Char} (r : List Char) {c : Char} {t : List Char}
    (hp : p ≠ []) (h : p <+: (c :: t)) :
    replaceAll p r (c :: t) = r ++ replaceAll p r ((c :: t).drop p.length) := by
  have hb : p.isPrefixOf (c :: t) = true := List.isPrefixOf_iff_prefix.mpr h
  have hp1 : 0 < p.length := List.length_pos.mpr hp
  show repFuel p r (t.length + 1) (c :: t) = _
  simp only [repFuel]
  rw [if_pos hb]
  congr 1
  apply repFuel_fi p r hp
  · simp only [List.length_drop, List.length_cons]; omega
  · exact le_rfl

theorem prefix_append_cases {p a b : List Char} (h : p <+: a ++ b) :
    p <+: a ∨ a <+: p := by
  rcases Nat.le_total p.length a.length with hl | hl
  · exact Or.inl (List.prefix_of_prefix_length_le h (List.prefix_append a b) hl)
  · exact Or.inr (List.prefix_of_prefix_length_le (List.prefix_append a b) h hl)

/-- If no tail of `u` is prefix-compatible with the substituted value `r`,
then an occurrence of `u` at the head of the output of a replace pass was
already at the head of its input. -/
theorem prefix_of_repFuel {p r : List Char} :
    ∀ f s u, (∀ k, k < u.length → ¬ (u.drop k <+: r) ∧ ¬ (r <+: u.drop k)) →
      u <+: repFuel p r f s → u <+: s := by
  intro f
  induction f with
  | zero => intro s u _ h; exact h
  | succ f ih =>
    intro s u hu h
    cases s with
    | nil => exact h
    | cons c t =>
      simp only [repFuel] at h
      by_cases hpre : p.isPrefixOf (c :: t) = true
      · rw [if_pos hpre] at h
        cases u with
        | nil => exact List.nil_prefix
        | cons d u' =>
          rcases prefix_append_cases h with hc | hc
          · exact absurd hc (hu 0 (by simp)).1
          · exact absurd hc (hu 0 (by simp)).2
      · rw [if_neg hpre] at h
        cases u with
        | nil => exact List.nil_prefix
        | cons d u' =>
          rw [List.cons_prefix_cons] at h ⊢
          exact ⟨h.1, ih t u'
            (fun k hk => hu (k + 1) (by simpa using Nat.succ_lt_succ hk)) h.2⟩

theorem prefix_of_replaceAll {p r u : List Char}
    (hu : ∀ k, k < u.length → ¬ (u.drop k <+: r) ∧ ¬ (r <+: u.drop k))
    {s : List Char} (h : u <+: replaceAll p r s) : u <+: s :=
  prefix_of_repFuel s.length s u hu h

theorem rep3Fuel_fi (r1 r2 r3 : List Char) :
    ∀ f g s, s.length ≤ f → s.length ≤ g → rep3Fuel r1 r2 r3 f s = rep3Fuel r1 r2 r3 g s := by
  intro f
  induction f with
  | zero =>
    intro g s hf _
    have hs : s = [] := List.length_eq_zero.mp (Nat.le_zero.mp hf)
    subst hs
    cases g <;> rfl
  | succ f ih =>
    intro g s hf hg
    cases s with
    | nil => cases g <;> rfl
    | cons c t =>
      match g, hg with
      | g + 1, hg =>
        simp only [List.length_cons] at hf hg
        simp only [rep3Fuel]
        by_cases h1 : hostTok.isPrefixOf (c :: t) = true
        · simp only [if_pos h1]
          congr 1
          apply ih <;> (simp only [List.length_drop, List.length_cons]; omega)
        · simp only [if_neg h1]
          by_cases h2 : guestTok.isPrefixOf (c :: t) = true
          · simp only [if_pos h2]
            congr 1
            apply ih <;> (simp only [List.length_drop, List.length_cons]; omega)
          · simp only [if_neg h2]
            by_cases h3 : macTok.isPrefixOf (c :: t) = true
            · simp only [if_pos h3]
              congr 1
              apply ih <;> (simp only [List.length_drop, List.length_cons]; omega)
            · simp only [if_neg h3]
              congr 1
              apply ih <;> omega

theorem replace3_pos1 {r1 r2 r3 : List Char} {c : Char} {t : List Char}
    (h : hostTok <+: (c :: t)) :
    replace3 r1 r2 r3 (c :: t) = r1 ++ replace3 r1 r2 r3 ((c :: t).drop 11) := by
  have hb : hostTok.isPrefixOf (c :: t) = true := List.isPrefixOf_iff_prefix.mpr h
  show rep3Fuel r1 r2 r3 (t.length + 1) (c :: t) = _
  simp only [rep3Fuel]
  rw [if_pos hb]
  congr 1
  apply rep3Fuel_fi
  · simp only [List.length_drop, List.length_cons]; omega
  · exact le_rfl

theorem replace3_pos2 {r1 r2 r3 : List Char} {c : Char} {t : List Char}
    (h1 : ¬ hostTok <+: (c :: t)) (h : guestTok <+: (c :: t)) :
    replace3 r1 r2 r3 (c :: t) = r2 ++ replace3 r1 r2 r3 ((c :: t).drop 11) := by
  have hb1 : ¬ hostTok.isPrefixOf (c :: t) = true := fun hc =>
    h1 (List.isPrefixOf_iff_prefix.mp hc)
  have hb : guestTok.isPrefixOf (c :: t) = true := List.isPrefixOf_iff_prefix.mpr h
  show rep3Fuel r1 r2 r3 (t.length + 1) (c :: t) = _
  simp only [rep3Fuel]
  rw [if_neg hb1, if_pos hb]
  congr 1
  apply rep3Fuel_fi
  · simp only [List.length_drop, List.length_cons]; omega
  · exact le_rfl

theorem replace3_pos3 {r1 r2 r3 : List Char} {c : Char} {t : List Char}
    (h1 : ¬ hostTok <+: (c :: t)) (h2 : ¬ guestTok <+: (c :: t))
    (h : macTok <+: (c :: t)) :
    replace3 r1 r2 r3 (c :: t) = r3 ++ replace3 r1 r2 r3 ((c :: t).drop 17) := by
  have hb1 : ¬ hostTok.isPrefixOf (c :: t) = true := fun hc =>
    h1 (List.isPrefixOf_iff_prefix.mp hc)
  have hb2 : ¬ guestTok.isPrefixOf (c :: t) = true := fun hc =>
    h2 (List.isPrefixOf_iff_prefix.mp hc)
  have hb : macTok.isPrefixOf (c :: t) = true := List.isPrefixOf_iff_prefix.mpr h
  show rep3Fuel r1 r2 r3 (t.length + 1) (c :: t) = _
  simp only [rep3Fuel]
  rw [if_neg hb1, if_neg hb2, if_pos hb]
  congr 1
  apply rep3Fuel_fi
  · simp only [List.length_drop, List.length_cons]; omega
  · exact le_rfl

theorem replace3_neg {r1 r2 r3 : List Char} {c : Char} {t : List Char}
    (h1 : ¬ hostTok <+: (c :: t)) (h2 : ¬ guestTok <+: (c :: t))
    (h3 : ¬ macTok <+: (c :: t)) :
    replace3 r1 r2 r3 (c :: t) = c :: replace3 r1 r2 r3 t := by
  have hb1 : ¬ hostTok.isPrefixOf (c :: t) = true := fun hc =>
    h1 (List.isPrefixOf_iff_prefix.mp hc)
  have hb2 : ¬ guestTok.isPrefixOf (c :: t) = true := fun hc =>
    h2 (List.isPrefixOf_iff_prefix.mp hc)
  have hb3 : ¬ macTok.isPrefixOf (c :: t) = true := fun hc =>
    h3 (List.isPrefixOf_iff_prefix.mp hc)
  show rep3Fuel r1 r2 r3 (t.length + 1) (c :: t) = _
  simp only [rep3Fuel]
  rw [if_neg hb1, if_neg hb2, if_neg hb3]
  rfl

theorem replaceAll_of_no_occurrence {p : List Char} (r : List Char) :
    ∀ {s}, ¬ p <:+: s → replaceAll p r s = s := by
  intro s
  induction s with
  | nil => intro _; rfl
  | cons c t ih =>
    intro h
    have hpre : ¬ p <+: (c :: t) := fun hp => h hp.isInfix
    rw [replaceAll_neg r hpre, ih fun hi => h (List.infix_cons hi)]

theorem isDigit_ne_dot {c : Char} (h : c.isDigit = true) : c ≠ '.' := by
  intro he; subst he; exact absurd h (by decide)

theorem isDigit_ne_colon {c : Char} (h : c.isDigit = true) : c ≠ ':' := by
  intro he; subst he; exact absurd h (by decide)

theorem headOk_replaceAll {p r : List Char} (hp : p ≠ []) (hr : r.head? = some '1') :
    ∀ {s}, headOk s → headOk (replaceAll p r s) := by
  intro s hs
  cases s with
  | nil =>
    intro ch h
    rw [show replaceAll p r [] = [] from rfl] at h
    simp at h
  | cons c t =>
    by_cases hpre : p <+: (c :: t)
    · rw [replaceAll_pos r hp hpre]
      intro ch h
      cases r with
      | nil => simp at hr
      | cons r0 rr =>
        simp only [List.cons_append, List.head?_cons, Option.some.injEq] at hr h
        left
        rw [← h]
        exact hr
    · rw [replaceAll_neg r hpre]
      intro ch h
      simp only [List.head?_cons, Option.some.injEq] at h
      subst h
      exact hs _ rfl

theorem head?_of_isPrefixOf {x : Char} {xs X : List Char} (h : (x :: xs) <+: X) :
    X.head? = some x := by
  obtain ⟨t', ht'⟩ := h
  rw [← ht']
  rfl

/-- The guest-IP token cannot match starting inside the digit block of a
substituted IP value (digits, then `".1"`, then a head-safe tail). -/
theorem no_guest_in_block :
    ∀ (d X : List Char), (∀ ch ∈ d, ch.isDigit = true) → headOk X →
      ¬ guestTok <+: (d ++ '.' :: '1' :: X) := by
  intro d X hd hX h
  match d with
  | [] => simp [guestTok, List.cons_prefix_cons] at h
  | [a] => simp [guestTok, List.cons_prefix_cons] at h
  | [a, b] => simp [guestTok, List.cons_prefix_cons] at h
  | [a, b, c] =>
    simp only [guestTok, List.cons_append, List.nil_append, List.cons_prefix_cons] at h
    obtain ⟨-, -, -, -, -, h⟩ := h
    rcases hX '6' (head?_of_isPrefixOf h) with h1 | h1 <;> simp at h1
  | a :: b :: c :: e :: d' =>
    simp only [guestTok, List.cons_append, List.cons_prefix_cons] at h
    obtain ⟨-, -, -, he, -⟩ := h
    exact isDigit_ne_dot (hd e (by simp)) he.symm

/-- The MAC token cannot match starting inside the digit block of a
substituted host-IP value. -/
theorem no_mac_in_block1 :
    ∀ (d X : List Char), (∀ ch ∈ d, ch.isDigit = true) →
      ¬ macTok <+: (d ++ '.' :: '1' :: X) := by
  intro d X hd h
  match d with
  | [] => simp [macTok, List.cons_prefix_cons] at h
  | [a] => simp [macTok, List.cons_prefix_cons] at h
  | [a, b] => simp [macTok, List.cons_prefix_cons] at h
  | a :: b :: c :: d' =>
    simp only [macTok, List.cons_append, List.cons_prefix_cons] at h
    obtain ⟨-, -, hc, -⟩ := h
    exact isDigit_ne_colon (hd c (by simp)) hc.symm

/-- The MAC token cannot match starting inside the digit block of a
substituted guest-IP value. -/
theorem no_mac_in_block2 :
    ∀ (d X : List Char), (∀ ch ∈ d, ch.isDigit = true) →
      ¬ macTok <+: (d ++ '.' :: '2' :: X) := by
  intro d X hd h
  match d with
  | [] => simp [macTok, List.cons_prefix_cons] at h
  | [a] => simp [macTok, List.cons_prefix_cons] at h
  | [a, b] => simp [macTok, List.cons_prefix_cons] at h
  | a :: b :: c :: d' =>
    simp only [macTok, List.cons_append, List.cons_prefix_cons] at h
    obtain ⟨-, -, hc, -⟩ := h
    exact isDigit_ne_colon (hd c (by simp)) hc.symm

/-- The guest-IP token cannot match at the final `'1'` of a substituted
host-IP value when the following tail is head-safe. -/
theorem no_guest_at_one (X : List Char) (hX : headOk X) :
    ¬ guestTok <+: ('1' :: X) := by
  intro h
  simp only [guestTok, List.cons_prefix_cons, true_and] at h
  rcases hX '9' (head?_of_isPrefixOf h) with h1 | h1 <;> simp at h1

/-- The MAC token cannot match at the final `'1'` of a substituted host-IP
value when the following tail is head-safe. -/
theorem no_mac_at_one (X : List Char) (hX : headOk X) :
    ¬ macTok <+: ('1' :: X) := by
  intro h
  simp only [macTok, List.cons_prefix_cons, true_and] at h
  rcases hX '2' (head?_of_isPrefixOf h) with h1 | h1 <;> simp at h1

/-- The guest-IP token cannot match at the start of a substituted host-IP
value `"192.168." ++ d ++ ".1" ++ X`. -/
theorem no_guest_full :
    ∀ (d X : List Char), (∀ ch ∈ d, ch.isDigit = true) →
      ¬ guestTok <+:
        ('1' :: '9' :: '2' :: '.' :: '1' :: '6' :: '8' :: '.' :: (d ++ '.' :: '1' :: X)) := by
  intro d X hd h
  match d with
  | [] => simp [guestTok, List.cons_prefix_cons] at h
  | [a] => simp [guestTok, List.cons_prefix_cons] at h
  | a :: b :: d' =>
    simp only [guestTok, List.cons_append, List.cons_prefix_cons] at h
    obtain ⟨-, -, -, -, -, -, -, -, -, hb, -⟩ := h
    exact isDigit_ne_dot (hd b (by simp)) hb.symm

/-- A replace pass walks over a segment in which its pattern cannot match
at any position. -/
theorem replaceAll_skip {p : List Char} (r : List Char) :
    ∀ (a b : List Char), (∀ i, i < a.length → ¬ p <+: (a.drop i ++ b)) →
      replaceAll p r (a ++ b) = a ++ replaceAll p r b := by
  intro a
  induction a with
  | nil => intro b _; rfl
  | cons c a' ih =>
    intro b h
    have h0 : ¬ p <+: (c :: (a' ++ b)) := by
      have := h 0 (by simp)
      simpa using this
    rw [List.cons_append, replaceAll_neg r h0,
      ih b fun i hi => h (i + 1) (by simp only [List.length_cons]; omega)]
    rfl

/-- The host-IP pass walks over a guest-IP token unchanged. -/
theorem skip_host_over_guest (r X : List Char) :
    replaceAll hostTok r (guestTok ++ X) = guestTok ++ replaceAll hostTok r X := by
  apply replaceAll_skip
  intro i hi
  simp only [guestTok, List.length_cons, List.length_nil] at hi
  interval_cases i <;> simp [hostTok, guestTok, List.cons_prefix_cons]

/-- The host-IP pass walks over a MAC token unchanged. -/
theorem skip_host_over_mac (r X : List Char) :
    replaceAll hostTok r (macTok ++ X) = macTok ++ replaceAll hostTok r X := by
  apply replaceAll_skip
  intro i hi
  simp only [macTok, List.length_cons, List.length_nil] at hi
  interval_cases i <;> simp [hostTok, macTok, List.cons_prefix_cons]

/-- The guest-IP pass walks over a MAC token unchanged. -/
theorem skip_guest_over_mac (r X : List Char) :
    replaceAll guestTok r (macTok ++ X) = macTok ++ replaceAll guestTok r X := by
  apply replaceAll_skip
  intro i hi
  simp only [macTok, List.length_cons, List.length_nil] at hi
  interval_cases i <;> simp [guestTok, macTok, List.cons_prefix_cons]

/-- The guest-IP pass walks over the digit block and `".1"` tail of a
substituted host-IP value. -/
theorem pass_guest_over_digits (r : List Char) :
    ∀ (d X : List Char), (∀ ch ∈ d, ch.isDigit = true) → headOk X →
      replaceAll guestTok r (d ++ '.' :: '1' :: X) =
        d ++ '.' :: '1' :: replaceAll guestTok r X := by
  intro d
  induction d with
  | nil =>
    intro X _ hX
    rw [List.nil_append, replaceAll_neg r (by simp [guestTok, List.cons_prefix_cons]),
        replaceAll_neg r (no_guest_at_one X hX), List.nil_append]
  | cons a d' ih =>
    intro X hd hX
    have hneg : ¬ guestTok <+: (a :: (d' ++ '.' :: '1' :: X)) :=
      no_guest_in_block (a :: d') X hd hX
    rw [List.cons_append, replaceAll_neg r hneg,
      ih X (fun ch hch => hd ch (by simp [hch])) hX]
    rfl

/-- The MAC pass walks over the digit block and `".1"` tail of a
substituted host-IP value. -/
theorem pass_mac_over_digits1 (r : List Char) :
    ∀ (d X : List Char), (∀ ch ∈ d, ch.isDigit = true) → headOk X →
      replaceAll macTok r (d ++ '.' :: '1' :: X) =
        d ++ '.' :: '1' :: replaceAll macTok r X := by
  intro d
  induction d with
  | nil =>
    intro X _ hX
    rw [List.nil_append, replaceAll_neg r (by simp [macTok, List.cons_prefix_cons]),
        replaceAll_neg r (no_mac_at_one X hX), List.nil_append]
  | cons a d' ih =>
    intro X hd hX
    have hneg : ¬ macTok <+: (a :: (d' ++ '.' :: '1' :: X)) :=
      no_mac_in_block1 (a :: d') X hd
    rw [List.cons_append, replaceAll_neg r hneg,
      ih X (fun ch hch => hd ch (by simp [hch])) hX]
    rfl

/-- The MAC pass walks over the digit block and `".2"` tail of a
substituted guest-IP value. -/
theorem pass_mac_over_digits2 (r : List Char) :
    ∀ (d X : List Char), (∀ ch ∈ d, ch.isDigit = true) →
      replaceAll macTok r (d ++ '.' :: '2' :: X) =
        d ++ '.' :: '2' :: replaceAll macTok r X := by
  intro d
  induction d with
  | nil =>
    intro X _
    rw [List.nil_append, replaceAll_neg r (by simp [macTok, List.cons_prefix_cons]),
        replaceAll_neg r (by simp [macTok, List.cons_prefix_cons]), List.nil_append]
  | cons a d' ih =>
    intro X hd
    have hneg : ¬ macTok <+: (a :: (d' ++ '.' :: '2' :: X)) :=
      no_mac_in_block2 (a :: d') X hd
    rw [List.cons_append, replaceAll_neg r hneg,
      ih X fun ch hch => hd ch (by simp [hch])]
    rfl

/-- The guest-IP pass walks over a whole substituted host-IP value when the
following tail is head-safe. -/
theorem pass_guest_over_hostIp (cn : Nat) (r X : List Char) (hX : headOk X) :
    replaceAll guestTok r ((subnetChars cn ++ ['.', '1']) ++ X) =
      (subnetChars cn ++ ['.', '1']) ++ replaceAll guestTok r X := by
  have hd := fmtDec_digits cn
  simp only [subnetChars, List.append_assoc, List.cons_append, List.nil_append]
  rw [replaceAll_neg r (no_guest_full (fmtDec cn) X hd),
      replaceAll_neg r (by simp [guestTok, List.cons_prefix_cons]),
      replaceAll_neg r (by simp [guestTok, List.cons_prefix_cons]),
      replaceAll_neg r (by simp [guestTok, List.cons_prefix_cons]),
      replaceAll_neg r (by simp [guestTok, List.cons_prefix_cons]),
      replaceAll_neg r (by simp [guestTok, List.cons_prefix_cons]),
      replaceAll_neg r (by simp [guestTok, List.cons_prefix_cons]),
      replaceAll_neg r (by simp [guestTok, List.cons_prefix_cons]),
      pass_guest_over_digits r (fmtDec cn) X hd hX]

/-- The MAC pass walks over a whole substituted host-IP value when the
following tail is head-safe. -/
theorem pass_mac_over_hostIp (cn : Nat) (r X : List Char) (hX : headOk X) :
    replaceAll macTok r ((subnetChars cn ++ ['.', '1']) ++ X) =
      (subnetChars cn ++ ['.', '1']) ++ replaceAll macTok r X := by
  have hd := fmtDec_digits cn
  simp only [subnetChars, List.append_assoc, List.cons_append, List.nil_append]
  rw [replaceAll_neg r (by simp [macTok, List.cons_prefix_cons]),
      replaceAll_neg r (by simp [macTok, List.cons_prefix_cons]),
      replaceAll_neg r (by simp [macTok, List.cons_prefix_cons]),
      replaceAll_neg r (by simp [macTok, List.cons_prefix_cons]),
      replaceAll_neg r (by simp [macTok, List.cons_prefix_cons]),
      replaceAll_neg r (by simp [macTok, List.cons_prefix_cons]),
      replaceAll_neg r (by simp [macTok, List.cons_prefix_cons]),
      replaceAll_neg r (by simp [macTok, List.cons_prefix_cons]),
      pass_mac_over_digits1 r (fmtDec cn) X hd hX]

/-- The MAC pass walks over a whole substituted guest-IP value. -/
theorem pass_mac_over_guestIp (cn : Nat) (r X : List Char) :
    replaceAll macTok r ((subnetChars cn ++ ['.', '2']) ++ X) =
      (subnetChars cn ++ ['.', '2']) ++ replaceAll macTok r X := by
  have hd := fmtDec_digits cn
  simp only [subnetChars, List.append_assoc, List.cons_append, List.nil_append]
  rw [replaceAll_neg r (by simp [macTok, List.cons_prefix_cons]),
      replaceAll_neg r (by simp [macTok, List.cons_prefix_cons]),
      replaceAll_neg r (by simp [macTok, List.cons_prefix_cons]),
      replaceAll_neg r (by simp [macTok, List.cons_prefix_cons]),
      replaceAll_neg r (by simp [macTok, List.cons_prefix_cons]),
      replaceAll_neg r (by simp [macTok, List.cons_prefix_cons]),
      replaceAll_neg r (by simp [macTok, List.cons_prefix_cons]),
      replaceAll_neg r (by simp [macTok, List.cons_prefix_cons]),
      pass_mac_over_digits2 r (fmtDec cn) X hd]

/-- `replaceAll_pos` without the syntactic `cons` requirement. -/
theorem replaceAll_pos' {p : List Char} (r : List Char) {s : List Char}
    (hp : p ≠ []) (h : p <+: s) :
    replaceAll p r s = r ++ replaceAll p r (s.drop p.length) := by
  cases s with
  | nil => exact absurd (List.prefix_nil.mp h) hp
  | cons c t => exact replaceAll_pos r hp h

/-- No tail of `guestTokTail` is prefix-compatible with a substituted
IP value (they disagree within the first two characters). -/
theorem guestTokTail_ip_incompat (cn : Nat) (z : Char) :
    ∀ k, k < guestTokTail.length →
      ¬ (guestTokTail.drop k <+: (subnetChars cn ++ ['.', z])) ∧
      ¬ ((subnetChars cn ++ ['.', z]) <+: guestTokTail.drop k) := by
  intro k hk
  simp only [guestTokTail, List.length_cons, List.length_nil] at hk
  interval_cases k <;>
    exact ⟨by simp [guestTokTail, subnetChars, List.cons_append, List.cons_prefix_cons],
           by simp [guestTokTail, subnetChars, List.cons_append, List.cons_prefix_cons]⟩

/-- No tail of `macTokTail` is prefix-compatible with a substituted IP
value (no character of `macTokTail` is `'1'`). -/
theorem macTokTail_ip_incompat (cn : Nat) (z : Char) :
    ∀ k, k < macTokTail.length →
      ¬ (macTokTail.drop k <+: (subnetChars cn ++ ['.', z])) ∧
      ¬ ((subnetChars cn ++ ['.', z]) <+: macTokTail.drop k) := by
  intro k hk
  simp only [macTokTail, List.length_cons, List.length_nil] at hk
  interval_cases k <;>
    exact ⟨by simp [macTokTail, subnetChars, List.cons_append, List.cons_prefix_cons],
           by simp [macTokTail, subnetChars, List.cons_append, List.cons_prefix_cons]⟩

/-- Follower safety is inherited by every tail. -/
theorem followerSafe_drop {t : List Char} (h : followerSafe t) (m : Nat) :
    followerSafe (t.drop m) := by
  intro i hi hpre
  rw [List.drop_drop] at hpre
  rw [List.drop_drop, show m + (i + 11) = m + i + 11 by omega]
  simp only [List.length_drop] at hi
  exact h (m + i) (by omega) hpre

/-- The three sequential replace passes coincide with the simultaneous
replacement on every follower-safe template. -/
theorem passes_eq_replace3 (cn : Nat) (mv : List Char) :
    ∀ (n : Nat) (t : List Char), t.length ≤ n → followerSafe t →
      replaceAll macTok mv
        (replaceAll guestTok (subnetChars cn ++ ['.', '2'])
          (replaceAll hostTok (subnetChars cn ++ ['.', '1']) t)) =
      replace3 (subnetChars cn ++ ['.', '1']) (subnetChars cn ++ ['.', '2']) mv t := by
  intro n
  induction n with
  | zero =>
    intro t ht _
    have h0 : t = [] := List.length_eq_zero.mp (Nat.le_zero.mp ht)
    subst h0
    rfl
  | succ n ih =>
    intro t ht hsafe
    match t with
    | [] => rfl
    | c :: t0 =>
      by_cases h1 : hostTok <+: (c :: t0)
      · obtain ⟨t', ht'⟩ := h1
        have h1' : hostTok <+: (c :: t0) := ⟨t', ht'⟩
        have hdrop : (c :: t0).drop 11 = t' := by
          rw [← ht']; exact List.drop_left' rfl
        have hlen : t'.length ≤ n := by
          have hl := congrArg List.length ht'
          simp only [List.length_append, List.length_cons, hostTok,
            List.length_nil] at hl
          simp only [List.length_cons] at ht
          omega
        have hsafe' : followerSafe t' := by
          have := followerSafe_drop hsafe 11
          rwa [hdrop] at this
        have hht' : headOk t' := by
          intro ch hch
          right
          have hfs := hsafe 0 (by simp) h1'
          rw [show (0 : Nat) + 11 = 11 from rfl, hdrop, hch] at hfs
          simpa using hfs
        have hp1 : headOk (replaceAll hostTok (subnetChars cn ++ ['.', '1']) t') :=
          @headOk_replaceAll hostTok (subnetChars cn ++ ['.', '1'])
            (by simp [hostTok]) rfl t' hht'
        have hp2 : headOk (replaceAll guestTok (subnetChars cn ++ ['.', '2'])
            (replaceAll hostTok (subnetChars cn ++ ['.', '1']) t')) :=
          @headOk_replaceAll guestTok (subnetChars cn ++ ['.', '2'])
            (by simp [guestTok]) rfl _ hp1
        rw [replaceAll_pos _ (by simp [hostTok]) h1',
            show List.drop hostTok.length (c :: t0) = t' from hdrop,
            pass_guest_over_hostIp cn _ _ hp1,
            pass_mac_over_hostIp cn _ _ hp2,
            replace3_pos1 h1', hdrop,
            ih t' hlen hsafe']
      · by_cases h2 : guestTok <+: (c :: t0)
        · obtain ⟨t', ht'⟩ := h2
          have h2' : guestTok <+: (c :: t0) := ⟨t', ht'⟩
          have hdrop : (c :: t0).drop 11 = t' := by
            rw [← ht']; exact List.drop_left' rfl
          have hlen : t'.length ≤ n := by
            have hl := congrArg List.length ht'
            simp only [List.length_append, List.length_cons, guestTok,
              List.length_nil] at hl
            simp only [List.length_cons] at ht
            omega
          have hsafe' : followerSafe t' := by
            have := followerSafe_drop hsafe 11
            rwa [hdrop] at this
          have e1 : replaceAll hostTok (subnetChars cn ++ ['.', '1']) (c :: t0) =
              guestTok ++ replaceAll hostTok (subnetChars cn ++ ['.', '1']) t' := by
            rw [← ht']; exact skip_host_over_guest _ t'
          have e2 : replaceAll guestTok (subnetChars cn ++ ['.', '2'])
                (guestTok ++ replaceAll hostTok (subnetChars cn ++ ['.', '1']) t') =
              (subnetChars cn ++ ['.', '2']) ++
                replaceAll guestTok (subnetChars cn ++ ['.', '2'])
                  (replaceAll hostTok (subnetChars cn ++ ['.', '1']) t') := by
            rw [replaceAll_pos' _ (by simp [guestTok]) (List.prefix_append guestTok _),
              List.drop_left]
          rw [e1, e2, pass_mac_over_guestIp cn mv _,
              replace3_pos2 h1 h2', hdrop,
              ih t' hlen hsafe']
        · by_cases h3 : macTok <+: (c :: t0)
          · obtain ⟨t', ht'⟩ := h3
            have h3' : macTok <+: (c :: t0) := ⟨t', ht'⟩
            have hdrop : (c :: t0).drop 17 = t' := by
              rw [← ht']; exact List.drop_left' rfl
            have hlen : t'.length ≤ n := by
              have hl := congrArg List.length ht'
              simp only [List.length_append, List.length_cons, macTok,
                List.length_nil] at hl
              simp only [List.length_cons] at ht
              omega
            have hsafe' : followerSafe t' := by
              have := followerSafe_drop hsafe 17
              rwa [hdrop] at this
            have e1 : replaceAll hostTok (subnetChars cn ++ ['.', '1']) (c :: t0) =
                macTok ++ replaceAll hostTok (subnetChars cn ++ ['.', '1']) t' := by
              rw [← ht']; exact skip_host_over_mac _ t'
            have e2 : replaceAll guestTok (subnetChars cn ++ ['.', '2'])
                  (macTok ++ replaceAll hostTok (subnetChars cn ++ ['.', '1']) t') =
                macTok ++ replaceAll guestTok (subnetChars cn ++ ['.', '2'])
                  (replaceAll hostTok (subnetChars cn ++ ['.', '1']) t') :=
              skip_guest_over_mac _ _
            have e3 : replaceAll macTok mv
                  (macTok ++ replaceAll guestTok (subnetChars cn ++ ['.', '2'])
                    (replaceAll hostTok (subnetChars cn ++ ['.', '1']) t')) =
                mv ++ replaceAll macTok mv
                  (replaceAll guestTok (subnetChars cn ++ ['.', '2'])
                    (replaceAll hostTok (subnetChars cn ++ ['.', '1']) t')) := by
              rw [replaceAll_pos' _ (by simp [macTok]) (List.prefix_append macTok _),
                List.drop_left]
            rw [e1, e2, e3, replace3_pos3 h1 h2 h3', hdrop,
                ih t' hlen hsafe']
          · have hsafe0 : followerSafe t0 := followerSafe_drop hsafe 1
            have hne2 : ¬ guestTok <+:
                (c :: replaceAll hostTok (subnetChars cn ++ ['.', '1']) t0) := by
              intro hcon
              rw [show guestTok = '1' :: guestTokTail from rfl] at hcon
              obtain ⟨hc, hrest⟩ := List.cons_prefix_cons.mp hcon
              have hrest' : guestTokTail <+: t0 :=
                prefix_of_replaceAll (guestTokTail_ip_incompat cn '1') hrest
              refine h2 ?_
              rw [show guestTok = '1' :: guestTokTail from rfl]
              exact List.cons_prefix_cons.mpr ⟨hc, hrest'⟩
            have hne3 : ¬ macTok <+:
                (c :: replaceAll guestTok (subnetChars cn ++ ['.', '2'])
                  (replaceAll hostTok (subnetChars cn ++ ['.', '1']) t0)) := by
              intro hcon
              rw [show macTok = '1' :: macTokTail from rfl] at hcon
              obtain ⟨hc, hrest⟩ := List.cons_prefix_cons.mp hcon
              have hr1 : macTokTail <+:
                  replaceAll hostTok (subnetChars cn ++ ['.', '1']) t0 :=
                prefix_of_replaceAll (macTokTail_ip_incompat cn '2') hrest
              have hr2 : macTokTail <+: t0 :=
                prefix_of_replaceAll (macTokTail_ip_incompat cn '1') hr1
              refine h3 ?_
              rw [show macTok = '1' :: macTokTail from rfl]
              exact List.cons_prefix_cons.mpr ⟨hc, hr2⟩
            rw [replaceAll_neg _ h1, replaceAll_neg _ hne2, replaceAll_neg _ hne3,
                replace3_neg h1 h2 h3,
                ih t0 (by simp only [List.length_cons] at ht; omega) hsafe0]

/-- C5 (amended): the templated file written by either seeder is computed by
three successive `str::replace` passes (host IP, then guest IP, then MAC).
On every follower-safe template — no host-IP placeholder occurrence
immediately followed by an ASCII digit — this equals the simultaneous
replacement of every (leftmost, non-overlapping) occurrence of the three
tokens with no other bytes altered; and on a template containing no
placeholder, the substitution is a no-op unconditionally.  (Without the
follower-safety proviso the original claim fails; see the
counterexample.) -/
theorem C5_substitution (cn : Nat) (rand : Fin 6 → Nat) (t : List Char) :
    (followerSafe t →
      substituteIdentity (GuestNetworkConfig.new cn rand) t =
        replace3 (GuestNetworkConfig.new cn rand).host_ip
          (GuestNetworkConfig.new cn rand).guest_ip
          (GuestNetworkConfig.new cn rand).guest_mac t) ∧
    (placeholderFree t → substituteIdentity (GuestNetworkConfig.new cn rand) t = t) := by
  constructor
  · intro hsafe
    simp only [substituteIdentity]
    rw [show (GuestNetworkConfig.new cn rand).host_ip = subnetChars cn ++ ['.', '1'] from rfl,
        show (GuestNetworkConfig.new cn rand).guest_ip = subnetChars cn ++ ['.', '2'] from rfl]
    exact passes_eq_replace3 cn _ t.length t le_rfl hsafe
  · intro hfree
    obtain ⟨hf1, hf2, hf3⟩ := hfree
    simp only [substituteIdentity]
    rw [replaceAll_of_no_occurrence _ hf1, replaceAll_of_no_occurrence _ hf2,
        replaceAll_of_no_occurrence _ hf3]

/-- C5 counterexample: on the template `"192.168.2.192.168.2.2"` (a host-IP
placeholder followed by a digit, overlapped by a guest-IP placeholder) with
counter 5, the sequential substitution yields
`"192.168.5.192.168.5.2"` while the simultaneous replacement of the
template's token occurrences yields `"192.168.5.192.168.2.2"` — the
sequential passes alter bytes that are not part of any token occurrence of
the template, so the claim as stated is false. -/
theorem C5_counterexample :
    substituteIdentity net5 tBad =
      ('1' :: '9' :: '2' :: '.' :: '1' :: '6' :: '8' :: '.' :: '5' :: '.' ::
        '1' :: '9' :: '2' :: '.' :: '1' :: '6' :: '8' :: '.' :: '5' :: '.' :: '2' :: []) ∧
    replace3 net5.host_ip net5.guest_ip net5.guest_mac tBad =
      ('1' :: '9' :: '2' :: '.' :: '1' :: '6' :: '8' :: '.' :: '5' :: '.' ::
        '1' :: '9' :: '2' :: '.' :: '1' :: '6' :: '8' :: '.' :: '2' :: '.' :: '2' :: []) ∧
    substituteIdentity net5 tBad ≠ replace3 net5.host_ip net5.guest_ip net5.guest_mac tBad := by
  refine ⟨by decide, by decide, by decide⟩

theorem C5_witness :
    followerSafe tSafe ∧
    substituteIdentity (GuestNetworkConfig.new 7 randZero) tSafe =
      replace3 (GuestNetworkConfig.new 7 randZero).host_ip
        (GuestNetworkConfig.new 7 randZero).guest_ip
        (GuestNetworkConfig.new 7 randZero).guest_mac tSafe ∧
    placeholderFree tFree ∧
    substituteIdentity (GuestNetworkConfig.new 7 randZero) tFree = tFree :=
  ⟨by decide, (C5_substitution 7 randZero tSafe).1 (by decide),
   by decide, (C5_substitution 7 randZero tFree).2 (by decide)⟩

end RHFW
